import Mathlib

/-!
Shallow embedding of the Discovery Compounding Orchestrator
(`src/backend`): the discovery store (`Discovery.ts`), the topic queue
(`ResearchDirectorAgent.ts`), the novelty validator, the chain builder,
and the agent controller's routing and handoff policies.

External effects (OpenAI calls, JSON parsing of model responses, regex
matches, wall-clock timestamps, uuid generation) are modelled as explicit
inputs: an external call that may throw or whose response may fail to
parse becomes an `Except Unit _` value, a generated identifier becomes a
`String` parameter, and timestamps are dropped where no claim mentions
them.  JavaScript-specific value coercions (`x || default` on possibly
`undefined` or `0` numeric fields, `undefined` comparing false against
numbers) are modelled explicitly on `Option` values by the `js*` helpers.
-/

namespace DiscoveryEngine

/-- JS `x || dflt` for a numeric field that may be `undefined` (`none`)
or `0` (both falsy). -/
def jsNum (v : Option Int) (dflt : Int) : Int :=
  match v with
  | none => dflt
  | some n => if n = 0 then dflt else n

/-- JS `x >= k` where `x` may be `undefined`: `undefined >= k` is `false`. -/
def jsGe (v : Option Int) (k : Int) : Bool :=
  match v with
  | none => false
  | some n => k ≤ n

/-- JS `s || dflt` for a string field that may be `undefined` or `""`. -/
def jsStr (v : Option String) (dflt : String) : String :=
  match v with
  | none => dflt
  | some s => if s = "" then dflt else s

/-- First-match association-list lookup, the model of `Map.get`. -/
def lookupAssoc {α : Type} (l : List (String × α)) (k : String) : Option α :=
  match l with
  | [] => none
  | p :: ps => if p.1 = k then some p.2 else lookupAssoc ps k

/-- The `Map.set`: overwrite the entry if the key is present, else append. -/
def setAssoc {α : Type} (l : List (String × α)) (k : String) (v : α) :
    List (String × α) :=
  if l.any (fun p => p.1 = k) then
    l.map (fun p => if p.1 = k then (p.1, v) else p)
  else
    l ++ [(k, v)]

/-- Case-insensitive-ready substring test; the model of JS
`String.prototype.includes` (callers lower-case their input first,
mirroring the source's `toLowerCase()` calls). -/
def strIncludes (s pat : String) : Bool :=
  go s.data
where
  go : List Char → Bool
  | [] => pat.data.isPrefixOf []
  | c :: rest => pat.data.isPrefixOf (c :: rest) || go rest

/-- The model of JS `toLowerCase()` (ASCII, which covers every literal
pattern in the source). -/
def lowerStr (s : String) : String :=
  ⟨s.data.map Char.toLower⟩

/-! ### Discovery store (`src/backend/models/Discovery.ts`) -/

/-- The `Discovery['status']`. -/
inductive DStatus where
  | pending
  | validated
  | rejected
deriving DecidableEq, Repr

/-- The `Source` (`Discovery.ts`). -/
structure Source where
  url : String
  title : String
  keyInsight : String
  credibility : Int
deriving DecidableEq, Repr

/-- The `Discovery` (`Discovery.ts`); the `timestamp : Date` field is wall
clock time and is omitted (no claim mentions it). -/
structure Discovery where
  id : String
  finding : String
  noveltyScore : Int
  noveltyExplanation : String
  sourcesSynthesized : List Source
  discoveredBy : List String
  buildsOn : List String
  threadId : String
  researchNext : List String
  status : DStatus
deriving DecidableEq, Repr

/-- The `DiscoveryThread` (`Discovery.ts`), timestamps omitted. -/
structure DiscoveryThread where
  id : String
  topic : String
  discoveries : List Discovery
  depth : Int
deriving DecidableEq, Repr

/-- The `DiscoveryManager`: its two private `Map`s as association lists in
insertion order. -/
structure DiscoveryManager where
  discoveries : List (String × Discovery)
  threads : List (String × DiscoveryThread)
deriving DecidableEq, Repr

namespace DiscoveryManager

/-- The `createNewThread` (`Discovery.ts`); the uuid is an explicit input. -/
def createNewThread (m : DiscoveryManager) (tid topic : String) :
    DiscoveryManager × DiscoveryThread :=
  let thread : DiscoveryThread := { id := tid, topic := topic, discoveries := [], depth := 0 }
  ({ m with threads := setAssoc m.threads tid thread }, thread)

/-- The `addDiscoveryToThread` (`Discovery.ts`): a silent no-op when the
thread id is unknown. -/
def addDiscoveryToThread (m : DiscoveryManager) (d : Discovery) : DiscoveryManager :=
  match lookupAssoc m.threads d.threadId with
  | none => m
  | some thread =>
    let thread' := { thread with
      discoveries := thread.discoveries ++ [d],
      depth := max thread.depth (d.buildsOn.length + 1) }
    { m with threads := setAssoc m.threads d.threadId thread' }

/-- The `createDiscovery` (`Discovery.ts`): built `pending` with score `0`;
the uuid of the discovery (and of the lazily created thread when no
`threadId` is supplied) are explicit inputs. -/
def createDiscovery (m : DiscoveryManager) (did : String) (finding noveltyExplanation : String)
    (sources : List Source) (discoveredBy buildsOn : List String)
    (threadId : Option String) (newTid : String) : DiscoveryManager × Discovery :=
  let (m1, tid) :=
    match threadId with
    | some t => (m, t)
    | none => ((createNewThread m newTid finding).1, newTid)
  let d : Discovery := {
    id := did, finding := finding, noveltyScore := 0,
    noveltyExplanation := noveltyExplanation, sourcesSynthesized := sources,
    discoveredBy := discoveredBy, buildsOn := buildsOn, threadId := tid,
    researchNext := [], status := DStatus.pending }
  let m2 := { m1 with discoveries := m1.discoveries ++ [(d.id, d)] }
  (addDiscoveryToThread m2 d, d)

/-- The `updateDiscoveryStatus` (`Discovery.ts` lines 87-95): mutate the
stored discovery in place when the id is found; the score is only
written when one is passed (`noveltyScore !== undefined`).  The JS
method returns `void` and never throws; the model is a total function
on the store. -/
def updateDiscoveryStatus (m : DiscoveryManager) (discoveryId : String)
    (status : DStatus) (noveltyScore : Option Int) : DiscoveryManager :=
  { m with discoveries := m.discoveries.map (fun p =>
      if p.1 = discoveryId then
        (p.1, { p.2 with status := status,
                         noveltyScore := noveltyScore.getD p.2.noveltyScore })
      else p) }

end DiscoveryManager

/-! ### Novelty Validator (`NoveltyValidatorAgent`, `src/unnamed/part_004`) -/

/-- The structured fields the validator reads out of the external
model's JSON response; a field the response omits is `none`. -/
structure ValidationResponse where
  noveltyScore : Option Int
  validationReason : Option String
  comparisonInsights : Option (List String)
  recommendation : Option String
deriving DecidableEq, Repr

/-- The `NoveltyAssessment` (`part_004`). -/
structure NoveltyAssessment where
  discoveryId : String
  noveltyScore : Int
  validationReason : String
  comparisonInsights : List String
  recommendation : String
deriving DecidableEq, Repr

/-- The validator's mutable fields: `knowledgeBase : Map<string, string[]>`
and `processedCount`. -/
structure ValidatorState where
  knowledgeBase : List (String × List String)
  processedCount : Nat
deriving DecidableEq, Repr

namespace NoveltyValidatorAgent

/-- One entry of `domainPatterns` (`part_004` line 176): the regex
source text paired with the case-insensitive substring alternatives it
matches (`/materials?/i` already matches on the stem `material`). -/
structure DomainPattern where
  source : String
  alternatives : List String
deriving Repr

/-- The `domainPatterns` (`part_004` lines 176-180). -/
def domainPatterns : List DomainPattern :=
  [ ⟨"quantum", ["quantum"]⟩,
    ⟨"AI|artificial intelligence", ["ai", "artificial intelligence"]⟩,
    ⟨"blockchain", ["blockchain"]⟩,
    ⟨"biotech", ["biotech"]⟩,
    ⟨"space", ["space"]⟩,
    ⟨"materials?", ["material"]⟩,
    ⟨"energy", ["energy"]⟩,
    ⟨"computing", ["computing"]⟩,
    ⟨"neural", ["neural"]⟩,
    ⟨"genetic", ["genetic"]⟩,
    ⟨"robot", ["robot"]⟩,
    ⟨"autonomous", ["autonomous"]⟩,
    ⟨"machine learning", ["machine learning"]⟩,
    ⟨"cryptocurrency", ["cryptocurrency"]⟩,
    ⟨"climate", ["climate"]⟩ ]

/-- The `pattern.test(finding)` for one `domainPatterns` entry: the `/i`
flag lower-cases both sides. -/
def patternTest (p : DomainPattern) (finding : String) : Bool :=
  p.alternatives.any (fun a => strIncludes (lowerStr finding) a)

/-- The `pattern.source.replace(/[\/\\i]/g, '').toLowerCase()` (`part_004`
line 184): strip `/`, `\` and lower-case `i` from the regex source,
then lower-case. -/
def mangleTag (s : String) : String :=
  lowerStr ⟨s.data.filter (fun c => !(c = '/' || c = '\\' || c = 'i'))⟩

/-- The `extractTopics` (`part_004` lines 171-189): the (mangled) tag of
every matching domain pattern, defaulting to `["general"]`. -/
def extractTopics (finding : String) : List String :=
  let topics := domainPatterns.filterMap (fun p =>
    if patternTest p finding then some (mangleTag p.source) else none)
  if topics.isEmpty then ["general"] else topics

/-- The in-place mutation of one topic's insight list inside
`updateKnowledgeBase`: push the finding unless already present, then
`shift()` the oldest entry when the list exceeds 10. -/
def pushInsight (insights : List String) (finding : String) : List String :=
  if finding ∈ insights then insights
  else
    let grown := insights ++ [finding]
    if grown.length > 10 then grown.drop 1 else grown

/-- The `updateKnowledgeBase` (`part_004` lines 150-168). -/
def updateKnowledgeBase (kb : List (String × List String)) (d : Discovery) :
    List (String × List String) :=
  (extractTopics d.finding).foldl
    (fun kb' topic => setAssoc kb' topic (pushInsight ((lookupAssoc kb' topic).getD []) d.finding))
    kb

/-- The `assessNovelty` (`part_004` lines 191-246).  The external call and
the `JSON.parse` of its response are summarized by the `Except` input:
`.error` is the catch branch (default rejection, score 3), `.ok` the
parsed response.  The returned score is clamped to `[1,10]` around the
JS fallback `validation.noveltyScore || 5`, and `accept` requires both
the external verdict `accept` and a raw score of at least 7. -/
def assessNovelty (d : Discovery) (ext : Except Unit ValidationResponse) :
    NoveltyAssessment :=
  match ext with
  | Except.error _ =>
    { discoveryId := d.id, noveltyScore := 3,
      validationReason := "Validation failed due to processing error",
      comparisonInsights := [], recommendation := "reject" }
  | Except.ok v =>
    { discoveryId := d.id,
      noveltyScore := min 10 (max 1 (jsNum v.noveltyScore 5)),
      validationReason := jsStr v.validationReason "No detailed reasoning provided",
      comparisonInsights := v.comparisonInsights.getD [],
      recommendation :=
        if v.recommendation = some "accept" ∧ jsGe v.noveltyScore 7 then "accept"
        else "reject" }

/-- The `process` (`part_004` lines 75-134), as a transformer of the
validator state and the discovery store: assess, set the final status
(`validated` on `accept`, else `rejected`) together with the assessed
score, and update the knowledge base only on acceptance.  A thrown
error anywhere in the pipeline lands in the same observable state as
the `.error` assessment: `updateDiscoveryStatus(id, 'rejected', 3)`
with the knowledge base untouched. -/
def process (st : ValidatorState) (m : DiscoveryManager) (d : Discovery)
    (ext : Except Unit ValidationResponse) : ValidatorState × DiscoveryManager :=
  let st1 := { st with processedCount := st.processedCount + 1 }
  let assessment := assessNovelty d ext
  let finalStatus :=
    if assessment.recommendation = "accept" then DStatus.validated else DStatus.rejected
  let m' := m.updateDiscoveryStatus d.id finalStatus (some assessment.noveltyScore)
  let st2 :=
    if assessment.recommendation = "accept" then
      { st1 with knowledgeBase := updateKnowledgeBase st1.knowledgeBase d }
    else st1
  (st2, m')

end NoveltyValidatorAgent

/-! ### Research Director and topic queue
(`src/backend/models/ResearchDirectorAgent.ts`) -/

/-- The `ResearchTopic['status']`. -/
inductive TStatus where
  | pending
  | active
  | completed
deriving DecidableEq, Repr

/-- The `ResearchTopic` (`ResearchDirectorAgent.ts`). -/
structure ResearchTopic where
  id : String
  topic : String
  priority : Int
  assignedTo : Option String
  status : TStatus
  parentDiscoveryId : Option String
deriving DecidableEq, Repr

/-- Descending priority: the order realised by the JS comparator
`(a, b) => b.priority - a.priority`. -/
def prioGe (a b : ResearchTopic) : Prop :=
  b.priority ≤ a.priority

instance : DecidableRel prioGe := fun a b => Int.decLe b.priority a.priority

instance : IsTotal ResearchTopic prioGe :=
  ⟨fun a b => le_total b.priority a.priority⟩

instance : IsTrans ResearchTopic prioGe :=
  ⟨fun _ _ _ h1 h2 => le_trans h2 h1⟩

namespace ResearchDirectorAgent

/-- The `updateResearchQueue` (`ResearchDirectorAgent.ts` lines 229-242):
append the new batch, drop completed topics, sort by descending
priority, truncate to 20. -/
def updateResearchQueue (queue newTopics : List ResearchTopic) : List ResearchTopic :=
  let q1 := queue ++ newTopics
  let q2 := q1.filter (fun t => !(t.status = TStatus.completed : Bool))
  let q3 := List.insertionSort prioGe q2
  if 20 < q3.length then q3.take 20 else q3

/-- The in-place `selectedTopic.status = 'active'` mutation seen through
the queue: the first pending topic becomes active. -/
def setFirstPendingActive : List ResearchTopic → List ResearchTopic
  | [] => []
  | t :: ts =>
    if t.status = TStatus.pending then { t with status := TStatus.active } :: ts
    else t :: setFirstPendingActive ts

/-- The `selectNextResearchTopic` (`ResearchDirectorAgent.ts` lines
244-256): take the first topic (in queue order) whose status is
`pending`, mark it active and return it; return `null` with the queue
untouched when none exists. -/
def selectNextResearchTopic (queue : List ResearchTopic) :
    Option ResearchTopic × List ResearchTopic :=
  match queue.find? (fun t => t.status = TStatus.pending) with
  | none => (none, queue)
  | some t => (some { t with status := TStatus.active }, setFirstPendingActive queue)

/-- The queue mutation of `processVoiceCommand` (`ResearchDirectorAgent.ts`
lines 286-304) in the branch where the `/research\s+(.+)/i` match
succeeds (the regex engine is external to the model): `unshift` a
priority-10 pending topic carrying the captured text.  No sort and no
truncation follow. -/
def voiceEnqueue (queue : List ResearchTopic) (tid userTopic : String) :
    List ResearchTopic :=
  { id := tid, topic := userTopic, priority := 10, assignedTo := none,
    status := TStatus.pending, parentDiscoveryId := none } :: queue

end ResearchDirectorAgent

/-! ### Chain Builder (`ChainBuilderAgent`, `src/unnamed/part_003`) -/

/-- The `ChainOpportunity` (`part_003`).  `connectionType` is the TS union
`builds_on | contradicts | intersects | applies`; it is kept as a
string because the code stores the unchecked response value with an
`|| 'intersects'` fallback. -/
structure ChainOpportunity where
  sourceDiscoveryId : String
  targetDiscoveryId : String
  connectionType : String
  connectionStrength : Int
  explanation : String
deriving DecidableEq, Repr

/-- The structured fields `analyzeConnection` reads from the external
model's JSON response.  `hasConnection` is `true` exactly when the
parsed value is the JSON boolean `true` (the code compares with
`=== true`). -/
structure ConnectionResponse where
  hasConnection : Bool
  connectionType : Option String
  connectionStrength : Option Int
  explanation : Option String
deriving DecidableEq, Repr

/-- The Chain Builder's mutable fields. -/
structure ChainBuilderState where
  chainOpportunities : List ChainOpportunity
  processedConnections : Nat
deriving DecidableEq, Repr

/-- Descending novelty score, the comparator of
`getValidatedDiscoveries`. -/
def scoreGe (a b : Discovery) : Prop :=
  b.noveltyScore ≤ a.noveltyScore

instance : DecidableRel scoreGe := fun a b => Int.decLe b.noveltyScore a.noveltyScore

instance : IsTotal Discovery scoreGe :=
  ⟨fun a b => le_total b.noveltyScore a.noveltyScore⟩

instance : IsTrans Discovery scoreGe :=
  ⟨fun _ _ _ h1 h2 => le_trans h2 h1⟩

/-- The `getValidatedDiscoveries` (`Discovery.ts` lines 111-116): validated
discoveries with score at least 7, by descending score, first `limit`. -/
def DiscoveryManager.getValidatedDiscoveries (m : DiscoveryManager) (limit : Nat) :
    List Discovery :=
  (List.insertionSort scoreGe
    ((m.discoveries.map (fun p => p.2)).filter
      (fun d => d.status = DStatus.validated ∧ 7 ≤ d.noveltyScore))).take limit

namespace ChainBuilderAgent

/-- The `analyzeConnection` (`part_003` lines 152-200): `null` on a failed
external call or unparseable response, `null` unless the response says
`hasConnection === true` with strength at least 6; otherwise the
opportunity with the strength clamped to `[1,10]` around the JS
fallback `connectionStrength || 5`. -/
def analyzeConnection (discovery1 discovery2 : Discovery)
    (ext : Except Unit ConnectionResponse) : Option ChainOpportunity :=
  match ext with
  | Except.error _ => none
  | Except.ok a =>
    if a.hasConnection = true ∧ jsGe a.connectionStrength 6 then
      some { sourceDiscoveryId := discovery1.id,
             targetDiscoveryId := discovery2.id,
             connectionType := jsStr a.connectionType "intersects",
             connectionStrength := min 10 (max 1 (jsNum a.connectionStrength 5)),
             explanation := jsStr a.explanation "Connection identified but not explained" }
    else none

/-- The inner-loop body of `findConnectionOpportunities` (`part_003`
lines 139-146): skip an existing discovery with the same id, analyze
the pair, and push the connection only when its strength is at least 6. -/
def connStep (ext : Discovery → Discovery → Except Unit ConnectionResponse)
    (newDiscovery : Discovery) (opps : List ChainOpportunity) (exD : Discovery) :
    List ChainOpportunity :=
  if newDiscovery.id = exD.id then opps
  else
    match analyzeConnection newDiscovery exD (ext newDiscovery exD) with
    | some connection =>
      if 6 ≤ connection.connectionStrength then opps ++ [connection] else opps
    | none => opps

/-- The `findConnectionOpportunities` (`part_003` lines 132-150): for each
validated new discovery against each existing discovery with a
different id, keep the analysis result only when its strength is at
least 6.  The per-pair external judgment is the `ext` input. -/
def findConnectionOpportunities (discoveries existing : List Discovery)
    (ext : Discovery → Discovery → Except Unit ConnectionResponse) :
    List ChainOpportunity :=
  discoveries.foldl
    (fun opportunities newDiscovery =>
      if !(newDiscovery.status = DStatus.validated : Bool) then opportunities
      else existing.foldl (connStep ext newDiscovery) opportunities)
    []

/-- The opportunity-accumulating slice of `process` (`part_003` lines
73-126): push the fresh opportunities onto the append-only
`chainOpportunities` log (the existing pool is
`getValidatedDiscoveries(20)` at the call site). -/
def process (st : ChainBuilderState) (m : DiscoveryManager) (input : List Discovery)
    (ext : Discovery → Discovery → Except Unit ConnectionResponse) : ChainBuilderState :=
  let newOpportunities :=
    findConnectionOpportunities input (m.getValidatedDiscoveries 20) ext
  { st with
    chainOpportunities := st.chainOpportunities ++ newOpportunities,
    processedConnections := st.processedConnections + input.length }

end ChainBuilderAgent

/-! ### Agent controller (`src/backend/config.ts`, `AgentController`) -/

/-- The roster built in the `AgentController` constructor, by
registration order of specializations. -/
def discoverySpecialists : List String :=
  ["Technology", "Science", "Applications"]

/-- The `MAX_PARALLEL_RESEARCH` (`config.ts` line 93). -/
def MAX_PARALLEL_RESEARCH : Nat := 2

/-- The numeric fields of a specialist `research_completed` message read
by `evaluateHandoffNeed`. -/
structure SpecialistResult where
  noveltyScore : Int
  sourcesSynthesized : Int
  sourcesAnalyzed : Int
deriving DecidableEq, Repr

/-- The decision record returned by `evaluateHandoffNeed`. -/
structure HandoffDecision where
  recommended : Bool
  targetAgent : String
  reason : String
deriving DecidableEq, Repr

/-- The controller's scheduling state (`config.ts` lines 82-86);
`timerSet` models `cycleInterval !== null` and `lastActivity` is an
abstract clock value. -/
structure ControllerState where
  isRunning : Bool
  currentCycle : Nat
  timerSet : Bool
  lastActivity : Nat
deriving DecidableEq, Repr

/-- What `start` reports. -/
inductive StartOutcome where
  | alreadyRunning
  | started
deriving DecidableEq, Repr

/-- What `stop` reports. -/
inductive StopOutcome where
  | alreadyStopped
  | stopped
deriving DecidableEq, Repr

namespace AgentController

/-- The Technology keyword test of `selectOptimalSpecialists`
(`config.ts` line 335) on the lower-cased topic. -/
def matchesTechnology (tl : String) : Bool :=
  strIncludes tl "tech" || strIncludes tl "ai" || strIncludes tl "software"

/-- The Science keyword test (`config.ts` line 339). -/
def matchesScience (tl : String) : Bool :=
  strIncludes tl "science" || strIncludes tl "research" || strIncludes tl "study"

/-- The Applications keyword test (`config.ts` line 343). -/
def matchesApplications (tl : String) : Bool :=
  strIncludes tl "application" || strIncludes tl "practical" || strIncludes tl "use"

/-- The `selectOptimalSpecialists` (`config.ts` lines 329-361), with
specialists named by their specialization: keyword matching against the
lower-cased topic, fall back to the first two roster entries when
nothing matches, add one more specialist when exactly one was selected,
and cap at `MAX_PARALLEL_RESEARCH`. -/
def selectOptimalSpecialists (topicText : String) : List String :=
  let tl := lowerStr topicText
  let s1 := if matchesTechnology tl then ["Technology"] else []
  let s2 := if matchesScience tl then s1 ++ ["Science"] else s1
  let s3 := if matchesApplications tl then s2 ++ ["Applications"] else s2
  let s4 := if s3.isEmpty then discoverySpecialists.take 2 else s3
  let s5 :=
    if s4.length = 1 then
      s4 ++ (discoverySpecialists.filter (fun n => !(s4.contains n))).take 1
    else s4
  s5.take MAX_PARALLEL_RESEARCH

/-- The `evaluateHandoffNeed` (`config.ts` lines 363-406).  The producing
specialist is identified by its index in the roster (JS compares object
identity `s !== specialist`); the parsed message is the `Except` input,
whose `.error` case is the catch branch. -/
def evaluateHandoffNeed (msg : Except Unit SpecialistResult) (roster : List String)
    (idx : Nat) : HandoffDecision :=
  match msg with
  | Except.error _ =>
    { recommended := false, targetAgent := "", reason := "Error evaluating handoff need" }
  | Except.ok m =>
    if 6 ≤ m.noveltyScore ∧ 2 ≤ m.sourcesSynthesized then
      { recommended := true, targetAgent := "NoveltyValidator",
        reason := "High novelty score warrants immediate validation" }
    else if 3 ≤ m.sourcesAnalyzed ∧ m.noveltyScore < 5 then
      let otherSpecialists := roster.enum.filter (fun p => p.1 ≠ idx)
      match otherSpecialists.head? with
      | some o =>
        { recommended := true, targetAgent := "DiscoverySpecialist-" ++ o.2,
          reason := "Multiple sources with low novelty - trying different specialization" }
      | none =>
        { recommended := false, targetAgent := "", reason := "No handoff needed" }
    else
      { recommended := false, targetAgent := "", reason := "No handoff needed" }

/-- The `start` (`config.ts` lines 167-188): an early return when already
running; otherwise raise the flag, stamp the activity clock, install
the interval timer and run the first cycle immediately (the cycle body
is the opaque `runCycle` argument).  Total, hence never throws on the
already-running path. -/
def start (runCycle : ControllerState → ControllerState) (now : Nat)
    (s : ControllerState) : ControllerState × StartOutcome :=
  if s.isRunning then (s, StartOutcome.alreadyRunning)
  else
    let s1 := { s with isRunning := true, lastActivity := now, timerSet := true }
    (runCycle s1, StartOutcome.started)

/-- The `stop` (`config.ts` lines 190-205): an early return when already
stopped; otherwise lower the flag and clear the interval timer. -/
def stop (s : ControllerState) : ControllerState × StopOutcome :=
  if s.isRunning then
    ({ s with isRunning := false, timerSet := false }, StopOutcome.stopped)
  else (s, StopOutcome.alreadyStopped)

end AgentController

/-! ### Helper lemmas -/

theorem map_update_of_lookupAssoc_none {α : Type} (f : α → α) :
    ∀ (l : List (String × α)) (k : String), lookupAssoc l k = none →
      l.map (fun p => if p.1 = k then (p.1, f p.2) else p) = l := by
  intro l k h
  induction l with
  | nil => rfl
  | cons p ps ih =>
    simp only [lookupAssoc] at h
    by_cases hk : p.1 = k
    · simp [hk] at h
    · simp only [hk, if_false] at h
      simp [List.map, hk, ih h]

theorem lookupAssoc_map_update {α : Type} (f : α → α) :
    ∀ (l : List (String × α)) (k : String) (v : α), lookupAssoc l k = some v →
      lookupAssoc (l.map (fun p => if p.1 = k then (p.1, f p.2) else p)) k = some (f v) := by
  intro l k v h
  induction l with
  | nil => simp [lookupAssoc] at h
  | cons p ps ih =>
    simp only [lookupAssoc] at h
    by_cases hk : p.1 = k
    · simp only [hk, if_true] at h
      injection h with h'
      subst h'
      simp [List.map, lookupAssoc, hk]
    · simp only [hk, if_false] at h
      simp [List.map, lookupAssoc, hk, ih h]

/-! ### Claim theorems -/

/-- C9: `start()` and `stop()` are idempotent: `start` on a running
system and `stop` on a stopped system leave the state (running flag,
cycle counter, timer) unchanged and report the current state; both are
total functions, so neither throws. -/
theorem start_stop_idempotent :
    ∀ (runCycle : ControllerState → ControllerState) (now : Nat) (s : ControllerState),
      (s.isRunning = true →
        AgentController.start runCycle now s = (s, StartOutcome.alreadyRunning)) ∧
      (s.isRunning = false →
        AgentController.stop s = (s, StopOutcome.alreadyStopped)) := by
  intro runCycle now s
  constructor
  · intro h
    simp [AgentController.start, h]
  · intro h
    simp [AgentController.stop, h]

/-- Witness for C9 at concrete states: a running system's `start` and a
stopped system's `stop` both report the current state unchanged. -/
theorem start_stop_idempotent_witness :
    AgentController.start id 0 ⟨true, 3, true, 7⟩ =
      (⟨true, 3, true, 7⟩, StartOutcome.alreadyRunning) ∧
    AgentController.stop ⟨false, 3, false, 7⟩ =
      (⟨false, 3, false, 7⟩, StopOutcome.alreadyStopped) :=
  ⟨(start_stop_idempotent id 0 ⟨true, 3, true, 7⟩).1 rfl,
   (start_stop_idempotent id 0 ⟨false, 3, false, 7⟩).2 rfl⟩

/-- C10: `updateDiscoveryStatus` with an id absent from the store is a
silent no-op: the threads are never touched, and when the id is not
found the whole manager is returned unchanged; the function is total
(`void` return in JS), so no error and no NotFound condition reaches
the caller. -/
theorem updateDiscoveryStatus_missing_id_noop :
    ∀ (m : DiscoveryManager) (did : String) (st : DStatus) (sc : Option Int),
      (m.updateDiscoveryStatus did st sc).threads = m.threads ∧
      (lookupAssoc m.discoveries did = none → m.updateDiscoveryStatus did st sc = m) := by
  intro m did st sc
  constructor
  · rfl
  · intro h
    unfold DiscoveryManager.updateDiscoveryStatus
    have := map_update_of_lookupAssoc_none
      (fun d => { d with status := st, noveltyScore := sc.getD d.noveltyScore })
      m.discoveries did h
    simp only [this]

/-- Witness for C10: updating a store that only holds discovery `"d1"`
under the unknown id `"ghost"` changes nothing. -/
theorem updateDiscoveryStatus_missing_id_noop_witness :
    (DiscoveryManager.updateDiscoveryStatus
        ⟨[("d1", { id := "d1", finding := "f", noveltyScore := 0, noveltyExplanation := "",
                   sourcesSynthesized := [], discoveredBy := [], buildsOn := [],
                   threadId := "t", researchNext := [], status := DStatus.pending })], []⟩
        "ghost" DStatus.rejected (some 3)).threads = [] ∧
    DiscoveryManager.updateDiscoveryStatus
        ⟨[("d1", { id := "d1", finding := "f", noveltyScore := 0, noveltyExplanation := "",
                   sourcesSynthesized := [], discoveredBy := [], buildsOn := [],
                   threadId := "t", researchNext := [], status := DStatus.pending })], []⟩
        "ghost" DStatus.rejected (some 3) =
      ⟨[("d1", { id := "d1", finding := "f", noveltyScore := 0, noveltyExplanation := "",
                 sourcesSynthesized := [], discoveredBy := [], buildsOn := [],
                 threadId := "t", researchNext := [], status := DStatus.pending })], []⟩ :=
  ⟨(updateDiscoveryStatus_missing_id_noop _ "ghost" DStatus.rejected (some 3)).1,
   (updateDiscoveryStatus_missing_id_noop _ "ghost" DStatus.rejected (some 3)).2 (by decide)⟩

/-- C2: `assessNovelty` on a parsed response recommends `accept`
exactly when the external verdict is `accept` and the response's raw
novelty score is at least 7; otherwise (including the failure branch)
it recommends `reject`, and the returned score always lies in
`[1, 10]`. -/
theorem assessNovelty_accept_iff :
    ∀ (d : Discovery) (r : Except Unit ValidationResponse),
      ((NoveltyValidatorAgent.assessNovelty d r).recommendation = "accept" ↔
        ∃ v, r = Except.ok v ∧ v.recommendation = some "accept" ∧
          ∃ n, v.noveltyScore = some n ∧ 7 ≤ n) ∧
      ((NoveltyValidatorAgent.assessNovelty d r).recommendation = "accept" ∨
        (NoveltyValidatorAgent.assessNovelty d r).recommendation = "reject") ∧
      1 ≤ (NoveltyValidatorAgent.assessNovelty d r).noveltyScore ∧
      (NoveltyValidatorAgent.assessNovelty d r).noveltyScore ≤ 10 := by
  intro d r
  cases r with
  | error e =>
    have hrec : (NoveltyValidatorAgent.assessNovelty d (Except.error e)).recommendation =
        "reject" := rfl
    refine ⟨?_, Or.inr hrec, (by norm_num : (1 : Int) ≤ 3), (by norm_num : (3 : Int) ≤ 10)⟩
    constructor
    · intro h
      rw [hrec] at h
      exact absurd h (by decide)
    · rintro ⟨v, hv, -⟩
      exact absurd hv (by simp)
  | ok v =>
    by_cases hc : v.recommendation = some "accept" ∧ jsGe v.noveltyScore 7
    · have hrec : (NoveltyValidatorAgent.assessNovelty d (Except.ok v)).recommendation =
          "accept" := by
        simp [NoveltyValidatorAgent.assessNovelty, hc]
      refine ⟨⟨fun _ => ?_, fun _ => hrec⟩, Or.inl hrec, ?_, ?_⟩
      · refine ⟨v, rfl, hc.1, ?_⟩
        have hge := hc.2
        cases hn : v.noveltyScore with
        | none => rw [hn] at hge; exact absurd hge (by simp [jsGe])
        | some n =>
          rw [hn] at hge
          exact ⟨n, rfl, by simpa [jsGe] using hge⟩
      · exact le_min (by norm_num) (le_max_left 1 _)
      · exact min_le_left 10 _
    · have hrec : (NoveltyValidatorAgent.assessNovelty d (Except.ok v)).recommendation =
          "reject" := by
        simp only [NoveltyValidatorAgent.assessNovelty, if_neg hc]
      refine ⟨⟨fun h => ?_, ?_⟩, Or.inr hrec, ?_, ?_⟩
      · rw [hrec] at h
        exact absurd h (by decide)
      · rintro ⟨v', hv', hacc, n, hn, h7⟩
        cases hv'
        exact absurd ⟨hacc, by simp [jsGe, hn]; exact h7⟩ hc
      · exact le_min (by norm_num) (le_max_left 1 _)
      · exact min_le_left 10 _

/-- C6: the handoff policy on a parsed specialist result: novelty ≥ 6
with ≥ 2 synthesized sources recommends the Novelty Validator;
otherwise ≥ 3 analyzed sources with novelty < 5 and another specialist
in the roster recommends a different specialist (a roster index other
than the producer's); otherwise no handoff. -/
theorem evaluateHandoffNeed_policy :
    ∀ (roster : List String) (idx : Nat) (m : SpecialistResult),
      (6 ≤ m.noveltyScore ∧ 2 ≤ m.sourcesSynthesized →
        AgentController.evaluateHandoffNeed (Except.ok m) roster idx =
          ⟨true, "NoveltyValidator", "High novelty score warrants immediate validation"⟩) ∧
      (¬(6 ≤ m.noveltyScore ∧ 2 ≤ m.sourcesSynthesized) →
        3 ≤ m.sourcesAnalyzed → m.noveltyScore < 5 →
        ∀ o, (roster.enum.filter (fun p => p.1 ≠ idx)).head? = some o →
          o.1 ≠ idx ∧
          AgentController.evaluateHandoffNeed (Except.ok m) roster idx =
            ⟨true, "DiscoverySpecialist-" ++ o.2,
             "Multiple sources with low novelty - trying different specialization"⟩) ∧
      (¬(6 ≤ m.noveltyScore ∧ 2 ≤ m.sourcesSynthesized) →
        ¬(3 ≤ m.sourcesAnalyzed ∧ m.noveltyScore < 5 ∧
            (roster.enum.filter (fun p => p.1 ≠ idx)) ≠ []) →
        AgentController.evaluateHandoffNeed (Except.ok m) roster idx =
          ⟨false, "", "No handoff needed"⟩) := by
  intro roster idx m
  refine ⟨?_, ?_, ?_⟩
  · intro h1
    simp [AgentController.evaluateHandoffNeed, h1]
  · intro h1 h3 h5 o ho
    have hfind : roster.enum.find? (fun p => !decide (p.1 = idx)) = some o := by
      simpa [List.filter_head?, ne_eq, decide_not] using ho
    have hne : o.1 ≠ idx := by
      have hp := List.find?_some hfind
      simpa using hp
    refine ⟨hne, ?_⟩
    simp only [AgentController.evaluateHandoffNeed, if_neg h1, if_pos (And.intro h3 h5),
      decide_not, List.filter_head?, hfind]
  · intro h1 h2
    by_cases hmid : 3 ≤ m.sourcesAnalyzed ∧ m.noveltyScore < 5
    · have hnil : roster.enum.filter (fun p => p.1 ≠ idx) = [] := by
        by_contra hne
        exact h2 ⟨hmid.1, hmid.2, hne⟩
      have hfind : roster.enum.find? (fun p => !decide (p.1 = idx)) = none := by
        simpa [List.filter_head?, ne_eq, decide_not] using congrArg List.head? hnil
      simp only [AgentController.evaluateHandoffNeed, if_neg h1, if_pos hmid,
        decide_not, List.filter_head?, hfind]
    · simp only [AgentController.evaluateHandoffNeed, if_neg h1, if_neg hmid]

/-- Witness for C6 at concrete inputs: a high-quality result is routed
to the validator, a broad low-novelty result is routed to a different
specialist in a two-entry roster, and a middling result is not handed
off. -/
theorem evaluateHandoffNeed_policy_witness :
    (AgentController.evaluateHandoffNeed (Except.ok ⟨6, 2, 0⟩) ["Technology", "Science"] 0 =
      ⟨true, "NoveltyValidator", "High novelty score warrants immediate validation"⟩) ∧
    ((1 : Nat) ≠ 0 ∧
      AgentController.evaluateHandoffNeed (Except.ok ⟨3, 1, 4⟩) ["Technology", "Science"] 0 =
        ⟨true, "DiscoverySpecialist-Science",
         "Multiple sources with low novelty - trying different specialization"⟩) ∧
    (AgentController.evaluateHandoffNeed (Except.ok ⟨5, 1, 2⟩) ["Technology", "Science"] 0 =
      ⟨false, "", "No handoff needed"⟩) :=
  ⟨(evaluateHandoffNeed_policy ["Technology", "Science"] 0 ⟨6, 2, 0⟩).1 (by decide),
   (evaluateHandoffNeed_policy ["Technology", "Science"] 0 ⟨3, 1, 4⟩).2.1 (by decide)
     (by decide) (by decide) (1, "Science") (by decide),
   (evaluateHandoffNeed_policy ["Technology", "Science"] 0 ⟨5, 1, 2⟩).2.2 (by decide)
     (by decide)⟩

/-- C7: specialist selection always yields between one and two roster
names; with no keyword match it falls back to the first two roster
entries in registration order, and with exactly one match a second
specialist is added so that two are selected. -/
theorem selectOptimalSpecialists_bounds :
    ∀ topicText : String,
      (1 ≤ (AgentController.selectOptimalSpecialists topicText).length ∧
        (AgentController.selectOptimalSpecialists topicText).length ≤ 2) ∧
      (∀ n ∈ AgentController.selectOptimalSpecialists topicText,
        n ∈ discoverySpecialists) ∧
      (AgentController.matchesTechnology (lowerStr topicText) = false ∧
        AgentController.matchesScience (lowerStr topicText) = false ∧
        AgentController.matchesApplications (lowerStr topicText) = false →
        AgentController.selectOptimalSpecialists topicText = ["Technology", "Science"]) ∧
      ((AgentController.matchesTechnology (lowerStr topicText),
          AgentController.matchesScience (lowerStr topicText),
          AgentController.matchesApplications (lowerStr topicText)) = (true, false, false) ∨
        (AgentController.matchesTechnology (lowerStr topicText),
          AgentController.matchesScience (lowerStr topicText),
          AgentController.matchesApplications (lowerStr topicText)) = (false, true, false) ∨
        (AgentController.matchesTechnology (lowerStr topicText),
          AgentController.matchesScience (lowerStr topicText),
          AgentController.matchesApplications (lowerStr topicText)) = (false, false, true) →
        (AgentController.selectOptimalSpecialists topicText).length = 2) := by
  intro topicText
  cases h1 : AgentController.matchesTechnology (lowerStr topicText) <;>
    cases h2 : AgentController.matchesScience (lowerStr topicText) <;>
      cases h3 : AgentController.matchesApplications (lowerStr topicText) <;>
        simp [AgentController.selectOptimalSpecialists, h1, h2, h3,
          discoverySpecialists, MAX_PARALLEL_RESEARCH]

/-- Witness for C7: a topic with no roster keyword falls back to the
first two specialists, and a science-only topic gains one extra
specialist. -/
theorem selectOptimalSpecialists_bounds_witness :
    AgentController.selectOptimalSpecialists "quantum sensors" = ["Technology", "Science"] ∧
    (AgentController.selectOptimalSpecialists "volcano study").length = 2 :=
  ⟨(selectOptimalSpecialists_bounds "quantum sensors").2.2.1 (by decide),
   (selectOptimalSpecialists_bounds "volcano study").2.2.2 (Or.inr (Or.inl (by decide)))⟩

theorem connStep_strength_invariant
    (ext : Discovery → Discovery → Except Unit ConnectionResponse) (nd : Discovery)
    (existing : List Discovery) :
    ∀ (acc : List ChainOpportunity), (∀ o ∈ acc, 6 ≤ o.connectionStrength) →
      ∀ o ∈ existing.foldl (ChainBuilderAgent.connStep ext nd) acc,
        6 ≤ o.connectionStrength := by
  induction existing with
  | nil => intro acc h o ho; exact h o ho
  | cons e es ih =>
    intro acc h
    apply ih
    intro o ho
    unfold ChainBuilderAgent.connStep at ho
    by_cases hid : nd.id = e.id
    · rw [if_pos hid] at ho
      exact h o ho
    · rw [if_neg hid] at ho
      cases hconn : ChainBuilderAgent.analyzeConnection nd e (ext nd e) with
      | none => simp only [hconn] at ho; exact h o ho
      | some c =>
        simp only [hconn] at ho
        by_cases hs : 6 ≤ c.connectionStrength
        · rw [if_pos hs] at ho
          rcases List.mem_append.mp ho with hacc | hc
          · exact h o hacc
          · rw [List.mem_singleton.mp hc]; exact hs
        · rw [if_neg hs] at ho
          exact h o ho

theorem findConnectionOpportunities_strength
    (discoveries existing : List Discovery)
    (ext : Discovery → Discovery → Except Unit ConnectionResponse) :
    ∀ o ∈ ChainBuilderAgent.findConnectionOpportunities discoveries existing ext,
      6 ≤ o.connectionStrength := by
  unfold ChainBuilderAgent.findConnectionOpportunities
  have general :
      ∀ (ds : List Discovery) (acc : List ChainOpportunity),
        (∀ o ∈ acc, 6 ≤ o.connectionStrength) →
        ∀ o ∈ ds.foldl
            (fun opportunities newDiscovery =>
              if !(newDiscovery.status = DStatus.validated : Bool) then opportunities
              else existing.foldl (ChainBuilderAgent.connStep ext newDiscovery) opportunities)
            acc,
          6 ≤ o.connectionStrength := by
    intro ds
    induction ds with
    | nil => intro acc h o ho; exact h o ho
    | cons d rest ih =>
      intro acc h
      apply ih
      by_cases hv : (d.status = DStatus.validated : Bool)
      · simp only [hv, Bool.not_true, Bool.false_eq_true, if_false]
        exact connStep_strength_invariant ext d existing acc h
      · simp only [Bool.not_eq_true] at hv
        simp only [hv, Bool.not_false, if_true]
        exact h
  exact general discoveries [] (by intro o ho; cases ho)

/-- C8: every `ChainOpportunity` the Chain Builder retains has
connection strength at least 6: `analyzeConnection` only ever returns
opportunities with strength in `[6, 10]`, and `process` preserves the
strength invariant of the accumulated `chainOpportunities` log. -/
theorem chainOpportunities_strength_invariant :
    (∀ (d1 d2 : Discovery) (r : Except Unit ConnectionResponse) (c : ChainOpportunity),
        ChainBuilderAgent.analyzeConnection d1 d2 r = some c →
        6 ≤ c.connectionStrength ∧ c.connectionStrength ≤ 10) ∧
    (∀ (st : ChainBuilderState) (m : DiscoveryManager) (input : List Discovery)
        (ext : Discovery → Discovery → Except Unit ConnectionResponse),
        (∀ o ∈ st.chainOpportunities, 6 ≤ o.connectionStrength) →
        ∀ o ∈ (ChainBuilderAgent.process st m input ext).chainOpportunities,
          6 ≤ o.connectionStrength) := by
  constructor
  · intro d1 d2 r c h
    cases r with
    | error e => exact absurd h (by simp [ChainBuilderAgent.analyzeConnection])
    | ok a =>
      simp only [ChainBuilderAgent.analyzeConnection] at h
      by_cases hc : a.hasConnection = true ∧ jsGe a.connectionStrength 6
      · rw [if_pos hc] at h
        injection h with h'
        have hge := hc.2
        cases hn : a.connectionStrength with
        | none => rw [hn] at hge; exact absurd hge (by simp [jsGe])
        | some n =>
          rw [hn] at hge
          have h6 : (6 : Int) ≤ n := by simpa [jsGe] using hge
          have hnum : jsNum a.connectionStrength 5 = n := by
            simp [jsNum, hn]
            intro h0
            omega
          rw [← h']
          simp only [hnum]
          constructor
          · rw [max_eq_right (by omega : (1 : Int) ≤ n)]
            exact le_min (by norm_num) h6
          · exact min_le_left 10 _
      · rw [if_neg hc] at h
        exact absurd h (by simp)
  · intro st m input ext hinv o ho
    unfold ChainBuilderAgent.process at ho
    simp only at ho
    rcases List.mem_append.mp ho with hold | hnew
    · exact hinv o hold
    · exact findConnectionOpportunities_strength input (m.getValidatedDiscoveries 20) ext o hnew

/-- Witness for C8: starting from an empty log, processing one
validated discovery against a store whose only other validated
discovery connects with reported strength 9 leaves a log whose entries
all have strength at least 6. -/
theorem chainOpportunities_strength_invariant_witness :
    ∀ o ∈ (ChainBuilderAgent.process ⟨[], 0⟩
        ⟨[("e1", { id := "e1", finding := "existing quantum result", noveltyScore := 8,
                   noveltyExplanation := "", sourcesSynthesized := [], discoveredBy := [],
                   buildsOn := [], threadId := "t", researchNext := [],
                   status := DStatus.validated })], []⟩
        [{ id := "n1", finding := "new ai result", noveltyScore := 9,
           noveltyExplanation := "", sourcesSynthesized := [], discoveredBy := [],
           buildsOn := [], threadId := "t", researchNext := [],
           status := DStatus.validated }]
        (fun _ _ => Except.ok ⟨true, some "builds_on", some 9, some "related"⟩)
      ).chainOpportunities,
      6 ≤ o.connectionStrength :=
  chainOpportunities_strength_invariant.2 ⟨[], 0⟩
    ⟨[("e1", { id := "e1", finding := "existing quantum result", noveltyScore := 8,
               noveltyExplanation := "", sourcesSynthesized := [], discoveredBy := [],
               buildsOn := [], threadId := "t", researchNext := [],
               status := DStatus.validated })], []⟩
    [{ id := "n1", finding := "new ai result", noveltyScore := 9,
       noveltyExplanation := "", sourcesSynthesized := [], discoveredBy := [],
       buildsOn := [], threadId := "t", researchNext := [],
       status := DStatus.validated }]
    (fun _ _ => Except.ok ⟨true, some "builds_on", some 9, some "related"⟩)
    (by intro o ho; cases ho)

/-- C3: when the validation pipeline fails (the external call throws or
its response does not parse), `process` stores the discovery as
`rejected` with the default score 3 and leaves the knowledge base
untouched; and for every outcome of the external call, a discovery
held by the store is never left `pending` once `process` returns. -/
theorem validation_failure_defensive_reject :
    ∀ (st : ValidatorState) (m : DiscoveryManager) (d d₀ : Discovery)
      (ext : Except Unit ValidationResponse),
      lookupAssoc m.discoveries d.id = some d₀ →
      ∃ d', lookupAssoc (NoveltyValidatorAgent.process st m d ext).2.discoveries d.id
              = some d' ∧
        d'.status ≠ DStatus.pending ∧
        (ext = Except.error () →
          d'.status = DStatus.rejected ∧ d'.noveltyScore = 3 ∧
          (NoveltyValidatorAgent.process st m d ext).1.knowledgeBase = st.knowledgeBase) := by
  intro st m d d₀ ext h
  unfold NoveltyValidatorAgent.process DiscoveryManager.updateDiscoveryStatus
  simp only
  have hlook := lookupAssoc_map_update
    (fun dd => { dd with
      status := if (NoveltyValidatorAgent.assessNovelty d ext).recommendation = "accept"
                then DStatus.validated else DStatus.rejected,
      noveltyScore := (some (NoveltyValidatorAgent.assessNovelty d ext).noveltyScore).getD
                        dd.noveltyScore })
    m.discoveries d.id d₀ h
  refine ⟨_, hlook, ?_, ?_⟩
  · by_cases hacc : (NoveltyValidatorAgent.assessNovelty d ext).recommendation = "accept" <;>
      simp [hacc]
  · rintro rfl
    have hrec : (NoveltyValidatorAgent.assessNovelty d (Except.error ())).recommendation
        = "reject" := rfl
    have hne : ¬ (NoveltyValidatorAgent.assessNovelty d (Except.error ())).recommendation
        = "accept" := by rw [hrec]; decide
    refine ⟨by simp [hne], ?_, by simp [hne]⟩
    have hsc : (NoveltyValidatorAgent.assessNovelty d (Except.error ())).noveltyScore = 3 := rfl
    simp [hne, hsc]

/-- Witness for C3 at a concrete store: a failing validation of the
pending discovery `"d1"` leaves it `rejected` with score 3. -/
theorem validation_failure_defensive_reject_witness :
    ∃ d', lookupAssoc (NoveltyValidatorAgent.process ⟨[], 0⟩
        ⟨[("d1", { id := "d1", finding := "a quantum synthesis", noveltyScore := 0,
                   noveltyExplanation := "", sourcesSynthesized := [], discoveredBy := [],
                   buildsOn := [], threadId := "t", researchNext := [],
                   status := DStatus.pending })], []⟩
        { id := "d1", finding := "a quantum synthesis", noveltyScore := 0,
          noveltyExplanation := "", sourcesSynthesized := [], discoveredBy := [],
          buildsOn := [], threadId := "t", researchNext := [],
          status := DStatus.pending }
        (Except.error ())).2.discoveries "d1" = some d' ∧
      d'.status ≠ DStatus.pending ∧
      (Except.error () = (Except.error () : Except Unit ValidationResponse) →
        d'.status = DStatus.rejected ∧ d'.noveltyScore = 3 ∧
        (NoveltyValidatorAgent.process ⟨[], 0⟩
          ⟨[("d1", { id := "d1", finding := "a quantum synthesis", noveltyScore := 0,
                     noveltyExplanation := "", sourcesSynthesized := [], discoveredBy := [],
                     buildsOn := [], threadId := "t", researchNext := [],
                     status := DStatus.pending })], []⟩
          { id := "d1", finding := "a quantum synthesis", noveltyScore := 0,
            noveltyExplanation := "", sourcesSynthesized := [], discoveredBy := [],
            buildsOn := [], threadId := "t", researchNext := [],
            status := DStatus.pending }
          (Except.error ())).1.knowledgeBase = []) :=
  validation_failure_defensive_reject ⟨[], 0⟩
    ⟨[("d1", { id := "d1", finding := "a quantum synthesis", noveltyScore := 0,
               noveltyExplanation := "", sourcesSynthesized := [], discoveredBy := [],
               buildsOn := [], threadId := "t", researchNext := [],
               status := DStatus.pending })], []⟩
    { id := "d1", finding := "a quantum synthesis", noveltyScore := 0,
      noveltyExplanation := "", sourcesSynthesized := [], discoveredBy := [],
      buildsOn := [], threadId := "t", researchNext := [],
      status := DStatus.pending }
    { id := "d1", finding := "a quantum synthesis", noveltyScore := 0,
      noveltyExplanation := "", sourcesSynthesized := [], discoveredBy := [],
      buildsOn := [], threadId := "t", researchNext := [],
      status := DStatus.pending }
    (Except.error ()) (by decide)

/-- C4 (amended): a batch enqueue through `updateResearchQueue` always
leaves the queue with at most 20 entries, sorted by descending
priority; a directed (voice) topic insertion prepends a priority-10
pending topic, which preserves descending order whenever the existing
priorities are at most 10, but performs no truncation. -/
theorem updateResearchQueue_bounded_sorted :
    ∀ (queue newTopics : List ResearchTopic),
      (ResearchDirectorAgent.updateResearchQueue queue newTopics).length ≤ 20 ∧
      List.Sorted prioGe (ResearchDirectorAgent.updateResearchQueue queue newTopics) ∧
      (∀ (tid userTopic : String),
        (∀ t ∈ queue, t.priority ≤ 10) →
        List.Sorted prioGe queue →
        List.Sorted prioGe (ResearchDirectorAgent.voiceEnqueue queue tid userTopic)) := by
  intro queue newTopics
  unfold ResearchDirectorAgent.updateResearchQueue
  simp only
  refine ⟨?_, ?_, ?_⟩
  · by_cases h : 20 < (List.insertionSort prioGe
        ((queue ++ newTopics).filter (fun t => !(t.status = TStatus.completed : Bool)))).length
    · rw [if_pos h]
      exact List.length_take_le 20 _
    · rw [if_neg h]
      omega
  · by_cases h : 20 < (List.insertionSort prioGe
        ((queue ++ newTopics).filter (fun t => !(t.status = TStatus.completed : Bool)))).length
    · rw [if_pos h]
      exact List.Pairwise.sublist (List.take_sublist 20 _)
        (List.sorted_insertionSort prioGe _)
    · rw [if_neg h]
      exact List.sorted_insertionSort prioGe _
  · intro tid userTopic hbound hsorted
    unfold ResearchDirectorAgent.voiceEnqueue
    exact List.Pairwise.cons (fun b hb => hbound b hb) hsorted

/-- Witness for C4 at a concrete queue: enqueueing 21 pending topics
through `updateResearchQueue` leaves at most 20 sorted entries, and a
voice insertion into a short all-priority-5 queue stays sorted. -/
theorem updateResearchQueue_bounded_sorted_witness :
    ((ResearchDirectorAgent.updateResearchQueue []
        ((List.range 21).map (fun i =>
          { id := toString i, topic := "t", priority := (5 : Int), assignedTo := none,
            status := TStatus.pending, parentDiscoveryId := none }))).length ≤ 20 ∧
      List.Sorted prioGe (ResearchDirectorAgent.updateResearchQueue []
        ((List.range 21).map (fun i =>
          { id := toString i, topic := "t", priority := (5 : Int), assignedTo := none,
            status := TStatus.pending, parentDiscoveryId := none })))) ∧
    List.Sorted prioGe (ResearchDirectorAgent.voiceEnqueue
      [{ id := "x", topic := "t", priority := (5 : Int), assignedTo := none,
         status := TStatus.pending, parentDiscoveryId := none }] "voice-1" "quantum") :=
  ⟨⟨(updateResearchQueue_bounded_sorted [] _).1,
    (updateResearchQueue_bounded_sorted [] _).2.1⟩,
   (updateResearchQueue_bounded_sorted
      [{ id := "x", topic := "t", priority := (5 : Int), assignedTo := none,
         status := TStatus.pending, parentDiscoveryId := none }] []).2.2 "voice-1" "quantum"
      (by decide) (by decide)⟩

/-- C4 counterexample: a directed-topic (voice) insertion into a full,
legal 20-entry queue (itself an `updateResearchQueue` output) yields 21
entries, so the claimed capacity bound after every queue mutation is
false. -/
theorem voiceEnqueue_capacity_counterexample :
    ResearchDirectorAgent.updateResearchQueue []
        ((List.range 20).map (fun i =>
          { id := toString i, topic := "t", priority := (5 : Int), assignedTo := none,
            status := TStatus.pending, parentDiscoveryId := none })) =
      (List.range 20).map (fun i =>
        { id := toString i, topic := "t", priority := (5 : Int), assignedTo := none,
          status := TStatus.pending, parentDiscoveryId := none }) ∧
    20 < (ResearchDirectorAgent.voiceEnqueue
      ((List.range 20).map (fun i =>
        { id := toString i, topic := "t", priority := (5 : Int), assignedTo := none,
          status := TStatus.pending, parentDiscoveryId := none }))
      "voice-1" "quantum computing").length := by
  constructor
  · decide
  · decide

theorem sorted_find?_pending_max :
    ∀ (q : List ResearchTopic), List.Sorted prioGe q →
      ∀ t₀, q.find? (fun t => t.status = TStatus.pending) = some t₀ →
      ∀ u ∈ q, u.status = TStatus.pending → u.priority ≤ t₀.priority := by
  intro q
  induction q with
  | nil => intro _ t₀ h; simp [List.find?] at h
  | cons a as ih =>
    intro hs t₀ hfind u hu hupend
    by_cases hpa : a.status = TStatus.pending
    · have ha : t₀ = a := by
        rw [List.find?_cons_of_pos] at hfind
        · exact (Option.some.inj hfind).symm
        · simp [hpa]
      subst ha
      rcases List.mem_cons.mp hu with rfl | hu'
      · exact le_refl _
      · exact List.rel_of_sorted_cons hs u hu'
    · rw [List.find?_cons_of_neg] at hfind
      · rcases List.mem_cons.mp hu with rfl | hu'
        · exact absurd hupend hpa
        · exact ih hs.of_cons t₀ hfind u hu' hupend
      · simp [hpa]

/-- C5 (amended): on a queue sorted by descending priority — the state
of the queue at the function's only call site, right after
`updateResearchQueue` re-sorts — `selectNextResearchTopic` returns a
previously `pending` topic of maximal priority among pending topics,
marked `active` in both the returned value and the queue; when no
pending topic exists it returns `none` and leaves the queue unchanged.
On an unsorted queue it returns the first pending topic in queue
order. -/
theorem selectNextResearchTopic_spec :
    ∀ queue : List ResearchTopic, List.Sorted prioGe queue →
      ((ResearchDirectorAgent.selectNextResearchTopic queue).1 = none →
        (ResearchDirectorAgent.selectNextResearchTopic queue).2 = queue ∧
        ∀ t ∈ queue, t.status ≠ TStatus.pending) ∧
      (∀ t, (ResearchDirectorAgent.selectNextResearchTopic queue).1 = some t →
        t.status = TStatus.active ∧
        (ResearchDirectorAgent.selectNextResearchTopic queue).2 =
          ResearchDirectorAgent.setFirstPendingActive queue ∧
        ∃ t₀, t₀ ∈ queue ∧ t₀.status = TStatus.pending ∧
          t = { t₀ with status := TStatus.active } ∧
          ∀ u ∈ queue, u.status = TStatus.pending → u.priority ≤ t₀.priority) := by
  intro queue hsorted
  cases hfind : queue.find? (fun t => t.status = TStatus.pending) with
  | none =>
    have hsel : ResearchDirectorAgent.selectNextResearchTopic queue = (none, queue) := by
      unfold ResearchDirectorAgent.selectNextResearchTopic
      rw [hfind]
    rw [hsel]
    constructor
    · intro _
      refine ⟨rfl, ?_⟩
      intro t ht hpend
      have hnone := List.find?_eq_none.mp hfind t ht
      simp [hpend] at hnone
    · intro t ht
      exact absurd ht (by simp)
  | some t₀ =>
    have hsel : ResearchDirectorAgent.selectNextResearchTopic queue =
        (some { t₀ with status := TStatus.active },
         ResearchDirectorAgent.setFirstPendingActive queue) := by
      unfold ResearchDirectorAgent.selectNextResearchTopic
      rw [hfind]
    rw [hsel]
    constructor
    · intro h
      exact absurd h (by simp)
    · intro t ht
      simp only [Option.some.injEq] at ht
      subst ht
      refine ⟨rfl, rfl, t₀, List.mem_of_find?_eq_some hfind, ?_, rfl, ?_⟩
      · have hp := List.find?_some hfind
        simpa using hp
      · exact sorted_find?_pending_max queue hsorted t₀ hfind

/-- A sorted two-topic queue used to witness C5. -/
def sampleSortedQueue : List ResearchTopic :=
  [{ id := "b", topic := "tb", priority := 9, assignedTo := none,
     status := TStatus.pending, parentDiscoveryId := none },
   { id := "a", topic := "ta", priority := 3, assignedTo := none,
     status := TStatus.pending, parentDiscoveryId := none }]

/-- The same two topics in unsorted order, refuting C5 as stated. -/
def sampleUnsortedQueue : List ResearchTopic :=
  [{ id := "a", topic := "ta", priority := 3, assignedTo := none,
     status := TStatus.pending, parentDiscoveryId := none },
   { id := "b", topic := "tb", priority := 9, assignedTo := none,
     status := TStatus.pending, parentDiscoveryId := none }]

/-- Witness for C5 on the concrete sorted queue `[priority 9 pending,
priority 3 pending]`: the selected topic is marked active and is
maximal among pending entries. -/
theorem selectNextResearchTopic_spec_witness :
    List.Sorted prioGe sampleSortedQueue ∧
    (∀ t, (ResearchDirectorAgent.selectNextResearchTopic sampleSortedQueue).1 = some t →
      t.status = TStatus.active ∧
      (ResearchDirectorAgent.selectNextResearchTopic sampleSortedQueue).2 =
        ResearchDirectorAgent.setFirstPendingActive sampleSortedQueue ∧
      ∃ t₀, t₀ ∈ sampleSortedQueue ∧ t₀.status = TStatus.pending ∧
        t = { t₀ with status := TStatus.active } ∧
        ∀ u ∈ sampleSortedQueue, u.status = TStatus.pending → u.priority ≤ t₀.priority) :=
  ⟨by decide, (selectNextResearchTopic_spec sampleSortedQueue (by decide)).2⟩

/-- C5 counterexample: on the unsorted queue `[priority 3 pending,
priority 9 pending]` the selection returns the priority-3 topic even
though a pending priority-9 topic exists, so the claim as stated does
not hold for every state of the topic queue. -/
theorem selectNextResearchTopic_counterexample :
    ¬ (∀ t, (ResearchDirectorAgent.selectNextResearchTopic sampleUnsortedQueue).1 = some t →
        ∀ u ∈ sampleUnsortedQueue, u.status = TStatus.pending →
          u.priority ≤ t.priority) := by
  intro h
  have h9 := h { id := "a", topic := "ta", priority := 3, assignedTo := none,
                 status := TStatus.active, parentDiscoveryId := none } (by decide)
    { id := "b", topic := "tb", priority := 9, assignedTo := none,
      status := TStatus.pending, parentDiscoveryId := none } (by decide) (by decide)
  exact absurd h9 (by decide)


theorem lookupAssoc_map_set {α : Type} (k : String) (v : α) :
    ∀ l : List (String × α), l.any (fun p => p.1 = k) = true →
      lookupAssoc (l.map (fun p => if p.1 = k then (p.1, v) else p)) k = some v := by
  intro l
  induction l with
  | nil => intro h; simp at h
  | cons p ps ih =>
    intro h
    by_cases hk : p.1 = k
    · simp [List.map, lookupAssoc, hk]
    · have h' : ps.any (fun p => p.1 = k) = true := by
        simpa [List.any_cons, hk] using h
      simp [List.map, lookupAssoc, hk, ih h']

theorem lookupAssoc_append_self {α : Type} (k : String) (v : α) :
    ∀ l : List (String × α), l.any (fun p => p.1 = k) = false →
      lookupAssoc (l ++ [(k, v)]) k = some v := by
  intro l
  induction l with
  | nil => intro _; simp [lookupAssoc]
  | cons p ps ih =>
    intro h
    have hk : ¬ p.1 = k := by
      intro hc
      simp [List.any_cons, hc] at h
    have h' : ps.any (fun p => p.1 = k) = false := by
      simpa [List.any_cons, hk] using h
    simp [lookupAssoc, hk, ih h']

theorem lookupAssoc_setAssoc_self {α : Type} (l : List (String × α)) (k : String) (v : α) :
    lookupAssoc (setAssoc l k v) k = some v := by
  unfold setAssoc
  cases hb : l.any (fun p => p.1 = k) with
  | false =>
    simp only [hb, Bool.false_eq_true, if_false]
    exact lookupAssoc_append_self k v l hb
  | true =>
    simp only [hb, if_true]
    exact lookupAssoc_map_set k v l hb

theorem mem_pushInsight (ins : List String) (f : String) :
    f ∈ NoveltyValidatorAgent.pushInsight ins f := by
  unfold NoveltyValidatorAgent.pushInsight
  by_cases h : f ∈ ins
  · rw [if_pos h]; exact h
  · rw [if_neg h]
    by_cases hl : (ins ++ [f]).length > 10
    · rw [if_pos hl]
      cases ins with
      | nil => simp at hl
      | cons a as => simp
    · rw [if_neg hl]
      simp

theorem extractTopics_ne_nil (finding : String) :
    NoveltyValidatorAgent.extractTopics finding ≠ [] := by
  unfold NoveltyValidatorAgent.extractTopics
  by_cases h : (NoveltyValidatorAgent.domainPatterns.filterMap (fun p =>
      if NoveltyValidatorAgent.patternTest p finding then
        some (NoveltyValidatorAgent.mangleTag p.source)
      else none)).isEmpty
  · simp [h]
  · simp only [h, Bool.false_eq_true, if_false]
    intro heq
    rw [heq] at h
    simp at h

theorem foldl_updateKB_contains (f : String) :
    ∀ (ts : List String) (kb : List (String × List String)), ts ≠ [] →
      ∃ t ∈ ts,
        f ∈ (lookupAssoc
          (ts.foldl (fun kb' topic =>
              setAssoc kb' topic
                (NoveltyValidatorAgent.pushInsight ((lookupAssoc kb' topic).getD []) f))
            kb) t).getD [] := by
  intro ts
  induction ts with
  | nil => intro kb h; exact absurd rfl h
  | cons t rest ih =>
    intro kb _
    by_cases hrest : rest = []
    · subst hrest
      refine ⟨t, by simp, ?_⟩
      simp only [List.foldl]
      rw [lookupAssoc_setAssoc_self]
      exact mem_pushInsight _ f
    · obtain ⟨t', ht', hmem⟩ :=
        ih (setAssoc kb t
          (NoveltyValidatorAgent.pushInsight ((lookupAssoc kb t).getD []) f)) hrest
      refine ⟨t', List.mem_cons_of_mem t ht', ?_⟩
      rw [List.foldl_cons]
      exact hmem

theorem updateKnowledgeBase_contains (kb : List (String × List String)) (d : Discovery) :
    ∃ t ∈ NoveltyValidatorAgent.extractTopics d.finding,
      d.finding ∈ (lookupAssoc (NoveltyValidatorAgent.updateKnowledgeBase kb d) t).getD [] := by
  unfold NoveltyValidatorAgent.updateKnowledgeBase
  exact foldl_updateKB_contains d.finding (NoveltyValidatorAgent.extractTopics d.finding) kb
    (extractTopics_ne_nil d.finding)

theorem accept_score_ge7 (d : Discovery) (ext : Except Unit ValidationResponse) :
    (NoveltyValidatorAgent.assessNovelty d ext).recommendation = "accept" →
    7 ≤ (NoveltyValidatorAgent.assessNovelty d ext).noveltyScore := by
  intro h
  cases ext with
  | error e =>
    have h' : ("reject" : String) = "accept" := h
    exact absurd h' (by decide)
  | ok v =>
    by_cases hc : v.recommendation = some "accept" ∧ jsGe v.noveltyScore 7
    · obtain ⟨-, hge⟩ := hc
      cases hn : v.noveltyScore with
      | none => rw [hn] at hge; exact absurd hge (by simp [jsGe])
      | some n =>
        rw [hn] at hge
        have h7 : (7 : Int) ≤ n := by simpa [jsGe] using hge
        have hsc : (NoveltyValidatorAgent.assessNovelty d (Except.ok v)).noveltyScore =
            min 10 (max 1 (jsNum v.noveltyScore 5)) := rfl
        rw [hsc, hn]
        have hjs : jsNum (some n) 5 = n := by
          show (if n = 0 then (5 : Int) else n) = n
          rw [if_neg (by omega : ¬ n = 0)]
        rw [hjs, max_eq_right (by omega : (1 : Int) ≤ n)]
        exact le_min (by norm_num) h7
    · have hrec : (NoveltyValidatorAgent.assessNovelty d (Except.ok v)).recommendation =
          "reject" := by
        simp only [NoveltyValidatorAgent.assessNovelty, if_neg hc]
      rw [hrec] at h
      exact absurd h (by decide)

/-- C1 (amended): the validator's `process` preserves the invariant
that every validated discovery in the store has novelty score at least
7, and immediately after a `process` call whose assessment accepts the
discovery, the knowledge base contains the discovery's finding under at
least one matching topic tag.  The containment clause is not a global
invariant of later states (each topic keeps only the 10 most recent
findings, evicting older ones), and the converse of the claimed
equivalence does not hold. -/
theorem validated_score_and_kb :
    ∀ (st : ValidatorState) (m : DiscoveryManager) (d : Discovery)
      (ext : Except Unit ValidationResponse),
      (∀ p ∈ m.discoveries, (p : String × Discovery).2.status = DStatus.validated →
        7 ≤ p.2.noveltyScore) →
      ((∀ p ∈ (NoveltyValidatorAgent.process st m d ext).2.discoveries,
          p.2.status = DStatus.validated → 7 ≤ p.2.noveltyScore) ∧
        ((NoveltyValidatorAgent.assessNovelty d ext).recommendation = "accept" →
          ∃ t ∈ NoveltyValidatorAgent.extractTopics d.finding,
            d.finding ∈ (lookupAssoc
              (NoveltyValidatorAgent.process st m d ext).1.knowledgeBase t).getD [])) := by
  intro st m d ext hinv
  constructor
  · intro p' hp' hval
    have hdisc : (NoveltyValidatorAgent.process st m d ext).2.discoveries =
        m.discoveries.map (fun p =>
          if p.1 = d.id then
            (p.1, { p.2 with
              status := if (NoveltyValidatorAgent.assessNovelty d ext).recommendation = "accept"
                        then DStatus.validated else DStatus.rejected,
              noveltyScore :=
                (some (NoveltyValidatorAgent.assessNovelty d ext).noveltyScore).getD
                  p.2.noveltyScore })
          else p) := rfl
    rw [hdisc] at hp'
    obtain ⟨p, hp, hmap⟩ := List.mem_map.mp hp'
    by_cases hk : p.1 = d.id
    · rw [if_pos hk] at hmap
      subst hmap
      simp only [Option.getD_some]
      by_cases hacc : (NoveltyValidatorAgent.assessNovelty d ext).recommendation = "accept"
      · exact accept_score_ge7 d ext hacc
      · rw [if_neg hacc] at hval
        simp at hval
    · rw [if_neg hk] at hmap
      subst hmap
      exact hinv p hp hval
  · intro hacc
    have hkb : (NoveltyValidatorAgent.process st m d ext).1.knowledgeBase =
        NoveltyValidatorAgent.updateKnowledgeBase st.knowledgeBase d := by
      unfold NoveltyValidatorAgent.process
      simp only [hacc, if_true]
    rw [hkb]
    exact updateKnowledgeBase_contains st.knowledgeBase d

/-- Witness for C1: validating the pending discovery `"d1"` with an
accepting external response of score 8 keeps the score invariant and
puts the finding into the knowledge base under a matching tag. -/
theorem validated_score_and_kb_witness :
    (∀ p ∈ (NoveltyValidatorAgent.process ⟨[], 0⟩
        ⟨[("d1", { id := "d1", finding := "a surprising quantum synthesis", noveltyScore := 0,
                   noveltyExplanation := "", sourcesSynthesized := [], discoveredBy := [],
                   buildsOn := [], threadId := "t", researchNext := [],
                   status := DStatus.pending })], []⟩
        { id := "d1", finding := "a surprising quantum synthesis", noveltyScore := 0,
          noveltyExplanation := "", sourcesSynthesized := [], discoveredBy := [],
          buildsOn := [], threadId := "t", researchNext := [],
          status := DStatus.pending }
        (Except.ok ⟨some 8, some "novel", some [], some "accept"⟩)).2.discoveries,
      p.2.status = DStatus.validated → 7 ≤ p.2.noveltyScore) ∧
    ((NoveltyValidatorAgent.assessNovelty
        { id := "d1", finding := "a surprising quantum synthesis", noveltyScore := 0,
          noveltyExplanation := "", sourcesSynthesized := [], discoveredBy := [],
          buildsOn := [], threadId := "t", researchNext := [],
          status := DStatus.pending }
        (Except.ok ⟨some 8, some "novel", some [], some "accept"⟩)).recommendation = "accept" →
      ∃ t ∈ NoveltyValidatorAgent.extractTopics "a surprising quantum synthesis",
        "a surprising quantum synthesis" ∈ (lookupAssoc
          (NoveltyValidatorAgent.process ⟨[], 0⟩
            ⟨[("d1", { id := "d1", finding := "a surprising quantum synthesis",
                       noveltyScore := 0, noveltyExplanation := "", sourcesSynthesized := [],
                       discoveredBy := [], buildsOn := [], threadId := "t",
                       researchNext := [], status := DStatus.pending })], []⟩
            { id := "d1", finding := "a surprising quantum synthesis", noveltyScore := 0,
              noveltyExplanation := "", sourcesSynthesized := [], discoveredBy := [],
              buildsOn := [], threadId := "t", researchNext := [],
              status := DStatus.pending }
            (Except.ok ⟨some 8, some "novel", some [], some "accept"⟩)).1.knowledgeBase
          t).getD []) :=
  validated_score_and_kb ⟨[], 0⟩
    ⟨[("d1", { id := "d1", finding := "a surprising quantum synthesis", noveltyScore := 0,
               noveltyExplanation := "", sourcesSynthesized := [], discoveredBy := [],
               buildsOn := [], threadId := "t", researchNext := [],
               status := DStatus.pending })], []⟩
    { id := "d1", finding := "a surprising quantum synthesis", noveltyScore := 0,
      noveltyExplanation := "", sourcesSynthesized := [], discoveredBy := [],
      buildsOn := [], threadId := "t", researchNext := [],
      status := DStatus.pending }
    (Except.ok ⟨some 8, some "novel", some [], some "accept"⟩)
    (by decide)

/-- The store after creating eleven pending discoveries `d0`, ..., `d10`
whose findings match no domain keyword (so all tag as `general`). -/
def cexManager : DiscoveryManager :=
  (List.range 11).foldl
    (fun m i => (DiscoveryManager.createDiscovery m ("d" ++ toString i)
        ("new result number " ++ toString i) "" [] [] [] (some "t0") "t0").1)
    ⟨[], []⟩

/-- An external response accepting with score 8. -/
def acceptResponse : ValidationResponse :=
  ⟨some 8, some "novel", some [], some "accept"⟩

/-- The validator state and store after accepting all eleven
discoveries in order. -/
def cexRun : ValidatorState × DiscoveryManager :=
  (List.range 11).foldl
    (fun p i =>
      match lookupAssoc p.2.discoveries ("d" ++ toString i) with
      | some d => NoveltyValidatorAgent.process p.1 p.2 d (Except.ok acceptResponse)
      | none => p)
    (⟨[], 0⟩, cexManager)

/-- C1 counterexample: after eleven acceptances under the same topic
tag, the oldest finding has been evicted from the knowledge base (each
topic keeps at most 10 insights), so a validated discovery (`d0`, score
8) whose finding is no longer in the knowledge base exists: the claimed
equivalence is false in this reachable state. -/
theorem validated_score_and_kb_counterexample :
    ¬ (∀ p ∈ cexRun.2.discoveries,
        p.2.status = DStatus.validated ↔
          (7 ≤ p.2.noveltyScore ∧
            ∃ t ∈ NoveltyValidatorAgent.extractTopics p.2.finding,
              p.2.finding ∈ (lookupAssoc cexRun.1.knowledgeBase t).getD [])) := by
  decide

end DiscoveryEngine
